import Mathlib

/-!
Verification model of the `compressembed` repository.

Source files embedded here:
* `lib/compress.go` — `Compress` / `Decompress` over Go's `compress/zlib`;
* `lib/lib.go` — `KeyGen`, `StrGen`, `IsValidVariableName`, `Run`;
* `main.go` — the default configuration value.

Bytes are modelled as `Nat` values below 256, byte slices as `List Nat`.
Randomness (`math/rand`, `crypto/rand`) is modelled by an explicit stream
`g : Nat → Nat`; file systems by `String → Option (List Nat)`.
-/

namespace CompressEmbed

/-- Adler-32 state update (RFC 1950, Go `hash/adler32`): running sums
`a` and `b` modulo 65521, updated with one input byte. -/
def adler32Step (ab : Nat × Nat) (d : Nat) : Nat × Nat :=
  ((ab.1 + d) % 65521, (ab.2 + (ab.1 + d) % 65521) % 65521)

/-- Adler-32 checksum of a byte sequence, as computed by Go `hash/adler32`:
`a` starts at 1, `b` at 0; the result is `b * 65536 + a`. -/
def adler32 (bs : List Nat) : Nat :=
  let ab := bs.foldl adler32Step (1, 0)
  ab.2 * 65536 + ab.1

/-- Big-endian 4-byte encoding of a 32-bit value, as zlib writes checksums. -/
def be32 (n : Nat) : List Nat :=
  [n / 16777216 % 256, n / 65536 % 256, n / 256 % 256, n % 256]

/-- Value of four big-endian bytes, as zlib reads checksums. -/
def be32val (b0 b1 b2 b3 : Nat) : Nat :=
  b0 * 16777216 + b1 * 65536 + b2 * 256 + b3

/-- The zlib stream header written by Go `compress/zlib` `writeHeader` for
compression level 9 (`flate.BestCompression`) with a preset dictionary, as in
`zlib.NewWriterLevelDict(&buf, flate.BestCompression, key)`: CMF byte `0x78`,
FLG byte with level bits `3 << 6`, the FDICT bit `1 << 5` (the dictionary
argument is always non-nil at the call site), and the FCHECK correction making
`CMF * 256 + FLG` a multiple of 31 (byte arithmetic, so reduced mod 256),
followed by the big-endian Adler-32 checksum of the dictionary. -/
def zlibHeader (dict : List Nat) : List Nat :=
  let flg0 := 3 * 64 + 32
  let flg := (flg0 + (31 - (0x78 * 256 + flg0) % 31)) % 256
  0x78 :: flg :: be32 (adler32 dict)

/-- State of a Go `zlib.Writer` over a `bytes.Buffer`: `buf` holds the bytes
already emitted to the underlying buffer, `pending` the payload handed to the
flate compressor but not yet flushed, `wroteHeader` whether the stream header
has been written. -/
structure ZWriter where
  buf : List Nat
  pending : List Nat
  wroteHeader : Bool
deriving DecidableEq, Repr

/-- One `zlib.Writer.Write` call, modelling Go `compress/zlib`: an empty
write returns before touching the header; otherwise the header is emitted on
the first write, and the payload is handed to the flate compressor. For
payloads shorter than the 32 KiB deflate window the compressor emits nothing
to the underlying buffer until `Close`, so the payload only accumulates in
`pending`. -/
def zlibWrite (dict : List Nat) (st : ZWriter) (p : List Nat) : ZWriter :=
  if p = [] then st
  else
    let st1 := if st.wroteHeader then st
      else { st with buf := st.buf ++ zlibHeader dict, wroteHeader := true }
    { st1 with pending := st1.pending ++ p }

/-- The full stream a `zlib.Writer.Close` would leave in the underlying
buffer: header (written now if no non-empty write preceded), the deflate-
compressed body produced by the given flate compressor, and the big-endian
Adler-32 checksum of the payload. -/
def zlibClose (deflateBody : List Nat → List Nat) (dict : List Nat)
    (st : ZWriter) : List Nat :=
  let st1 := if st.wroteHeader then st
    else { st with buf := st.buf ++ zlibHeader dict, wroteHeader := true }
  st1.buf ++ deflateBody st1.pending ++ be32 (adler32 st1.pending)

/-- Model of `Compress` from `lib/compress.go`. The Go code is

`w, err := zlib.NewWriterLevelDict(&buf, flate.BestCompression, key)` —
construction never fails at level 9, so the `return nil` branch is dead;

`defer w.Close()` — registered, but deferred calls run only after the
return value has been evaluated;

`w.Write(data)`; `return buf.Bytes()` — the returned slice header is
captured from `buf` before the deferred `Close` flushes the compressed body
and checksum into the buffer, so the result contains only what `Write`
itself emitted: nothing for an empty payload, and exactly the zlib header
for a non-empty payload shorter than the 32 KiB deflate window (the domain
on which this model is faithful). -/
def Compress (data key : List Nat) : List Nat :=
  (zlibWrite key ⟨[], [], false⟩ data).buf

/-- Model of `Decompress` from `lib/compress.go`, over Go `compress/zlib`
`NewReaderDict`: parse the 2-byte header (compression method must be 8 and
`CMF * 256 + FLG` a multiple of 31, else `ErrHeader` and the function
returns nil); if the FDICT bit is set, read the 4-byte dictionary checksum
and compare it with the Adler-32 of the supplied dictionary (`ErrDictionary`
on mismatch, returning nil); then `io.Copy` drains the flate reader into the
buffer, ignoring any error, and the accumulated bytes are returned. The
flate layer is a parameter `inflate dict body` giving the bytes the reader
yields on the post-header tail `body` with preset dictionary `dict`. -/
def Decompress (inflate : List Nat → List Nat → List Nat)
    (data key : List Nat) : List Nat :=
  match data with
  | b0 :: b1 :: rest =>
    if b0 % 16 = 8 ∧ (b0 * 256 + b1) % 31 = 0 then
      if b1 / 32 % 2 = 1 then
        match rest with
        | c0 :: c1 :: c2 :: c3 :: body =>
          if be32val c0 c1 c2 c3 = adler32 key then inflate key body else []
        | _ => []
      else inflate key rest
    else []
  | _ => []

/-- Character class `[a-zA-Z_]`, the first-character class of the identifier
regular expression in `IsValidVariableName`. -/
def isIdentStart (c : Char) : Bool :=
  ('a' ≤ c && c ≤ 'z') || ('A' ≤ c && c ≤ 'Z') || c = '_'

/-- Character class `[a-zA-Z0-9_]`, the continuation class of the identifier
regular expression in `IsValidVariableName`. -/
def isIdentCont (c : Char) : Bool :=
  isIdentStart c || ('0' ≤ c && c ≤ '9')

/-- Match of the anchored pattern `^[a-zA-Z_][a-zA-Z0-9_]*$` on a character
list: non-empty, first character in the start class, all remaining
characters in the continuation class. -/
def validIdent : List Char → Bool
  | [] => false
  | c :: cs => isIdentStart c && cs.all isIdentCont

/-- Model of `IsValidVariableName` from `lib/lib.go`: whether the whole string matches
the regular expression `^[a-zA-Z_][a-zA-Z0-9_]*$` (Go `regexp.MatchString`
with both anchors, no multiline flag, so `^`/`$` are text boundaries). -/
def IsValidVariableName (s : String) : Bool :=
  validIdent s.data

/-- The 63-character alphabet of `StrGen` from `lib/lib.go`:
52 letters, underscore, 10 digits. -/
def charset : List Char :=
  "aAbBcCdDeEfFgGhHiIjJkKlLmMnNoOpPqQrRsStTuUvVwWxXyYzZ_0123456789".data

/-- The characters one attempt of `StrGen` samples: `length` draws
`charset[rand.Intn(63)]` from the random stream `g`, consuming positions
`pos, pos+1, ...`. Each stream value is reduced mod 63, the range of
`rand.Intn(len(charset))`. -/
def sampleChars (g : Nat → Nat) (pos n : Nat) : List Char :=
  (List.range n).map fun i => charset.getD (g (pos + i) % 63) 'a'

/-- Model of `StrGen` from `lib/lib.go`: sample `len` characters from the alphabet;
`strconv.Atoi(string(b[0]))` succeeds exactly when the first character is a
decimal digit, in which case the whole string is resampled (`return
StrGen(length)`), otherwise the string is returned. The recursion is
unbounded in the source; here it carries explicit `fuel`, `none` meaning the
attempt budget ran out. For `len = 0` the source indexes `b[0]` out of
bounds (a Go panic), modelled as `none`. -/
def StrGen (g : Nat → Nat) (pos len fuel : Nat) : Option (List Char) :=
  match fuel with
  | 0 => none
  | fuel + 1 =>
    match sampleChars g pos len with
    | [] => none
    | c :: _ =>
      if c.isDigit then StrGen g (pos + len) len fuel
      else some (sampleChars g pos len)

/-- The 64-character standard base64 alphabet of Go
`encoding/base64.RawStdEncoding`. -/
def b64alphabet : List Char :=
  "ABCDEFGHIJKLMNOPQRSTUVWXYZabcdefghijklmnopqrstuvwxyz0123456789+/".data

/-- The base64 character for a 6-bit value. -/
def b64char (n : Nat) : Char :=
  b64alphabet.getD n ' '

/-- The 6-bit value of a base64 character: its index in the alphabet, `none`
for characters outside the alphabet (Go `CorruptInputError`). -/
def b64val (c : Char) : Option Nat :=
  let i := b64alphabet.indexOf c
  if i < 64 then some i else none

/-- Unpadded standard base64 encoding of a byte sequence, as produced by Go
`base64.RawStdEncoding.EncodeToString`: 3-byte groups become 4 characters; a
trailing 2-byte group becomes 3 characters and a trailing single byte 2
characters, with no `=` padding. -/
def b64encode : List Nat → List Char
  | a :: b :: c :: rest =>
    b64char (a / 4) :: b64char (a % 4 * 16 + b / 16) ::
      b64char (b % 16 * 4 + c / 64) :: b64char (c % 64) :: b64encode rest
  | [a, b] => [b64char (a / 4), b64char (a % 4 * 16 + b / 16), b64char (b % 16 * 4)]
  | [a] => [b64char (a / 4), b64char (a % 4 * 16)]
  | [] => []

/-- Unpadded standard base64 decoding of a character list: 4-character quanta
from the front, a trailing remainder of 3 or 2 characters yielding 2 or 1
bytes (Go's decoder is lenient about the unused trailing bits), a remainder
of 1 character being an error, as in Go `base64.RawStdEncoding`. -/
def b64decodeRaw : List Char → Option (List Nat)
  | c1 :: c2 :: c3 :: c4 :: rest =>
    match b64val c1, b64val c2, b64val c3, b64val c4, b64decodeRaw rest with
    | some s1, some s2, some s3, some s4, some tail =>
      some ((s1 * 4 + s2 / 16) :: (s2 % 16 * 16 + s3 / 4) :: (s3 % 4 * 64 + s4) :: tail)
    | _, _, _, _, _ => none
  | [c1, c2, c3] =>
    match b64val c1, b64val c2, b64val c3 with
    | some s1, some s2, some s3 => some [s1 * 4 + s2 / 16, s2 % 16 * 16 + s3 / 4]
    | _, _, _ => none
  | [c1, c2] =>
    match b64val c1, b64val c2 with
    | some s1, some s2 => some [s1 * 4 + s2 / 16]
    | _, _ => none
  | [_] => none
  | [] => some []

/-- Model of `base64.RawStdEncoding.DecodeString` on a string: carriage returns and
newlines are ignored by Go's decoder, the rest is decoded in quanta. -/
def b64decode (s : String) : Option (List Nat) :=
  b64decodeRaw (s.data.filter fun c => !(c == '\r' || c == '\n'))

/-- Model of `KeyGen` from `lib/lib.go`: 32 bytes from the cryptographic random
source (its error is ignored in the source; the stream `g` supplies the
bytes, reduced mod 256), encoded with `base64.RawStdEncoding`. -/
def KeyGen (g : Nat → Nat) : String :=
  String.mk (b64encode ((List.range 32).map fun i => g i % 256))

/-- The `Config` struct from `lib/lib.go`. -/
structure Config where
  Pkg : String
  Func : String
  Key : String
  Input : String
  Output : String
  TmpVar : String
  Var : String
  Src : String
deriving DecidableEq, Repr

/-- The package-level `cfg` value from `main.go`, before flag parsing:
`Func` and `Key` are freshly generated random values (parameters here),
`TmpVar` is left at the Go zero value. -/
def defaultCfg (func key : String) : Config :=
  { Pkg := "main", Func := func, Key := key, Input := "", Output := "resource.dat",
    TmpVar := "", Var := "", Src := "compressed.go" }

/-- Observable steps of `Run` from `lib/lib.go`, in the order the source
attempts them. `createFile` is `os.Create` (which truncates an existing
file), `writeFile` the artifact write, `renderSource` the template
`Execute` into the already-created source file. -/
inductive Event where
  | readInput : String → Event
  | validateVar : String → Event
  | createFile : String → Event
  | decodeKey : String → Event
  | writeFile : String → List Nat → Event
  | parseTemplate : Event
  | renderSource : String → Event
deriving DecidableEq, Repr

/-- Result of a `Run`: normal return, or `log.Fatal` with the source's
message. -/
inductive Outcome where
  | ok : Outcome
  | fatal : String → Outcome
deriving DecidableEq, Repr

/-- Model of `Run` from `lib/lib.go` as a trace semantics. Parameters: `fs` maps a
path to the readable file's contents (`os.ReadFile`); `cc` tells whether
`os.Create` succeeds on a path; `tmplOk` whether the embedded template
parses (`template.tmpl` is not part of the sources); `renderOk` whether
`Execute` succeeds. The returned list is the sequence of steps attempted, in
source order: read input, validate variable name, create output, decode
key, write the compressed artifact, create source file, parse template,
render; `log.Fatal` stops the run at the failing step. -/
def Run (fs : String → Option (List Nat)) (cc : String → Bool)
    (tmplOk renderOk : Bool) (cfg : Config) : List Event × Outcome :=
  match fs cfg.Input with
  | none => ([.readInput cfg.Input], .fatal "Missing input file")
  | some data =>
    if !IsValidVariableName cfg.Var then
      ([.readInput cfg.Input, .validateVar cfg.Var], .fatal "Invalid variable name")
    else if !cc cfg.Output then
      ([.readInput cfg.Input, .validateVar cfg.Var, .createFile cfg.Output],
       .fatal "Cannot create file")
    else
      match b64decode cfg.Key with
      | none =>
        ([.readInput cfg.Input, .validateVar cfg.Var, .createFile cfg.Output,
          .decodeKey cfg.Key], .fatal "Invalid key")
      | some key =>
        let pre := [Event.readInput cfg.Input, Event.validateVar cfg.Var,
          Event.createFile cfg.Output, Event.decodeKey cfg.Key,
          Event.writeFile cfg.Output (Compress data key)]
        if !cc cfg.Src then
          (pre ++ [.createFile cfg.Src], .fatal "Cannot create file")
        else if !tmplOk then
          (pre ++ [.createFile cfg.Src, .parseTemplate], .fatal "Cannot parse text")
        else if !renderOk then
          (pre ++ [.createFile cfg.Src, .parseTemplate, .renderSource cfg.Src],
           .fatal "Cannot write file")
        else
          (pre ++ [.createFile cfg.Src, .parseTemplate, .renderSource cfg.Src], .ok)

/-- Paths on which a trace attempted `os.Create`. -/
def createdPaths (tr : List Event) : List String :=
  tr.filterMap fun e =>
    match e with
    | .createFile p => some p
    | _ => none

/-- Whether a trace contains any step that writes bytes into a file
(artifact write or template render). -/
def writesAnything (tr : List Event) : Bool :=
  tr.any fun e =>
    match e with
    | .writeFile _ _ => true
    | .renderSource _ => true
    | _ => false

/-- The bytes of `"Hello World!"`, the determinism-scenario payload. -/
def helloWorld : List Nat := [72, 101, 108, 108, 111, 32, 87, 111, 114, 108, 100, 33]

/-- A 32-byte key of all zero bytes. -/
def zeroKey : List Nat := List.replicate 32 0

/-- A 32-byte key of all one bytes. -/
def oneKey : List Nat := List.replicate 32 1

/-- A file system holding one readable file `in.bin` with three bytes. -/
def fsOne : String → Option (List Nat) :=
  fun p => if p = "in.bin" then some [1, 2, 3] else none

/-- A file system with no readable files. -/
def fsNone : String → Option (List Nat) :=
  fun _ => none

/-- A file system holding one readable, empty file `in.bin`. -/
def fsEmpty : String → Option (List Nat) :=
  fun p => if p = "in.bin" then some [] else none

/-- The unpadded base64 encoding of 32 zero bytes: 43 `A` characters. -/
def keyA : String :=
  String.mk (List.replicate 43 'A')

/-- A configuration whose `Key` field is not well-formed unpadded base64
(one character is an invalid quantum) but which is otherwise valid. -/
def cfgBadKey : Config :=
  { Pkg := "main", Func := "F", Key := "!", Input := "in.bin", Output := "out.dat",
    TmpVar := "", Var := "payload", Src := "out.go" }

/-- A configuration with an invalid variable name and a missing input file. -/
def cfgMissingIn : Config :=
  { Pkg := "main", Func := "F", Key := keyA, Input := "missing.bin",
    Output := "out.dat", TmpVar := "", Var := "1bad", Src := "out.go" }

/-- A fully valid configuration: readable input `in.bin`, key decoding to 32
zero bytes, valid variable name. -/
def cfgGood : Config :=
  { Pkg := "demo", Func := "F", Key := keyA, Input := "in.bin", Output := "out.dat",
    TmpVar := "", Var := "payload", Src := "out.go" }

/-- A bad character (neither in the identifier start class nor in the
continuation class) occurring anywhere in a list falsifies `validIdent`. -/
theorem validIdent_false_of_bad_char (l : List Char) (c : Char)
    (hc : c ∈ l) (h1 : isIdentStart c = false) (h2 : isIdentCont c = false) :
    validIdent l = false := by
  cases l with
  | nil => rfl
  | cons d ds =>
    rcases List.mem_cons.mp hc with rfl | hmem
    · simp [validIdent, h1]
    · simp only [validIdent, Bool.and_eq_false_iff]
      right
      rw [Bool.eq_false_iff]
      intro hall
      rw [List.all_eq_true] at hall
      have := hall c hmem
      rw [h2] at this
      exact Bool.false_ne_true this

/-- One attempt of `StrGen` samples exactly `n` characters. -/
theorem sampleChars_length (g : Nat → Nat) (pos n : Nat) :
    (sampleChars g pos n).length = n := by
  simp [sampleChars]

/-- Every sampled character is an alphabet entry at an index below 63. -/
theorem sampleChars_mem (g : Nat → Nat) (pos n : Nat) (x : Char)
    (hx : x ∈ sampleChars g pos n) : ∃ i, i < 63 ∧ x = charset.getD i 'a' := by
  simp only [sampleChars, List.mem_map, List.mem_range] at hx
  obtain ⟨j, _, rfl⟩ := hx
  exact ⟨g (pos + j) % 63, Nat.mod_lt _ (by norm_num), rfl⟩

/-- The first sampled character of a non-empty attempt is the alphabet entry
selected by the stream value at the attempt's first position. -/
theorem sampleChars_head (g : Nat → Nat) (pos len : Nat) (hlen : 1 ≤ len) :
    (sampleChars g pos len).head? = some (charset.getD (g pos % 63) 'a') := by
  obtain ⟨m, rfl⟩ : ∃ m, len = m + 1 := ⟨len - 1, by omega⟩
  simp [sampleChars, List.range_succ_eq_map]

/-- Every character of the `StrGen` alphabet is in the identifier
continuation class `[a-zA-Z0-9_]`. -/
theorem charset_cont : ∀ i, i < 63 → isIdentCont (charset.getD i 'a') = true := by
  decide

/-- Every non-digit character of the `StrGen` alphabet is in the identifier
start class `[a-zA-Z_]`. -/
theorem charset_start : ∀ i, i < 63 → (charset.getD i 'a').isDigit = false →
    isIdentStart (charset.getD i 'a') = true := by
  decide

/-- Unfolding of one `StrGen` attempt with positive length: if the first
sampled character is a digit the whole string is resampled from the next
stream positions, otherwise the sampled string is returned. -/
theorem strGen_succ (g : Nat → Nat) (pos len fuel : Nat) (hlen : 1 ≤ len) :
    StrGen g pos len (fuel + 1) =
      if (charset.getD (g pos % 63) 'a').isDigit then StrGen g (pos + len) len fuel
      else some (sampleChars g pos len) := by
  rw [StrGen]
  cases hsc : sampleChars g pos len with
  | nil =>
    exfalso
    have hl := sampleChars_length g pos len
    rw [hsc] at hl
    simp at hl
    omega
  | cons c tail =>
    have hh := sampleChars_head g pos len hlen
    rw [hsc] at hh
    simp only [List.head?_cons, Option.some.injEq] at hh
    subst hh
    rfl

/-- The base64 value of an encoded 6-bit value is that value. -/
theorem b64val_b64char : ∀ n, n < 64 → b64val (b64char n) = some n := by
  decide

/-- Base64 alphabet characters are not `=` and not ignorable whitespace. -/
theorem b64char_props : ∀ n, n < 64 →
    b64char n ≠ '=' ∧ (b64char n == '\r' || b64char n == '\n') = false := by
  decide

/-- Every character emitted by `b64encode` on in-range bytes is an alphabet
character. -/
theorem b64encode_mem : ∀ (bs : List Nat), (∀ b ∈ bs, b < 256) →
    ∀ x ∈ b64encode bs, ∃ n, n < 64 ∧ x = b64char n
  | [], _, x, hx => absurd hx (by simp [b64encode])
  | [a], h, x, hx => by
    have ha : a < 256 := h a (by simp)
    simp only [b64encode, List.mem_cons, List.not_mem_nil, or_false] at hx
    rcases hx with rfl | rfl
    · exact ⟨a / 4, by omega, rfl⟩
    · exact ⟨a % 4 * 16, by omega, rfl⟩
  | [a, b], h, x, hx => by
    have ha : a < 256 := h a (by simp)
    have hb : b < 256 := h b (by simp)
    simp only [b64encode, List.mem_cons, List.not_mem_nil, or_false] at hx
    rcases hx with rfl | rfl | rfl
    · exact ⟨a / 4, by omega, rfl⟩
    · exact ⟨a % 4 * 16 + b / 16, by omega, rfl⟩
    · exact ⟨b % 16 * 4, by omega, rfl⟩
  | a :: b :: c :: rest, h, x, hx => by
    have ha : a < 256 := h a (by simp)
    have hb : b < 256 := h b (by simp)
    have hc : c < 256 := h c (by simp)
    simp only [b64encode, List.mem_cons] at hx
    rcases hx with rfl | rfl | rfl | rfl | hmem
    · exact ⟨a / 4, by omega, rfl⟩
    · exact ⟨a % 4 * 16 + b / 16, by omega, rfl⟩
    · exact ⟨b % 16 * 4 + c / 64, by omega, rfl⟩
    · exact ⟨c % 64, by omega, rfl⟩
    · exact b64encode_mem rest (fun y hy => h y (by simp [hy])) x hmem

/-- Decoding inverts encoding on in-range bytes. -/
theorem b64decodeRaw_b64encode : ∀ (bs : List Nat), (∀ b ∈ bs, b < 256) →
    b64decodeRaw (b64encode bs) = some bs
  | [], _ => rfl
  | [a], h => by
    have ha : a < 256 := h a (by simp)
    show b64decodeRaw [b64char (a / 4), b64char (a % 4 * 16)] = some [a]
    simp only [b64decodeRaw]
    rw [b64val_b64char (a / 4) (by omega), b64val_b64char (a % 4 * 16) (by omega)]
    show some [a / 4 * 4 + a % 4 * 16 / 16] = some [a]
    have e : a / 4 * 4 + a % 4 * 16 / 16 = a := by omega
    rw [e]
  | [a, b], h => by
    have ha : a < 256 := h a (by simp)
    have hb : b < 256 := h b (by simp)
    show b64decodeRaw [b64char (a / 4), b64char (a % 4 * 16 + b / 16),
      b64char (b % 16 * 4)] = some [a, b]
    simp only [b64decodeRaw]
    rw [b64val_b64char (a / 4) (by omega),
      b64val_b64char (a % 4 * 16 + b / 16) (by omega),
      b64val_b64char (b % 16 * 4) (by omega)]
    show some [a / 4 * 4 + (a % 4 * 16 + b / 16) / 16,
      (a % 4 * 16 + b / 16) % 16 * 16 + b % 16 * 4 / 4] = some [a, b]
    have e1 : a / 4 * 4 + (a % 4 * 16 + b / 16) / 16 = a := by omega
    have e2 : (a % 4 * 16 + b / 16) % 16 * 16 + b % 16 * 4 / 4 = b := by omega
    rw [e1, e2]
  | a :: b :: c :: rest, h => by
    have ha : a < 256 := h a (by simp)
    have hb : b < 256 := h b (by simp)
    have hc : c < 256 := h c (by simp)
    have ih := b64decodeRaw_b64encode rest (fun y hy => h y (by simp [hy]))
    show b64decodeRaw (b64char (a / 4) :: b64char (a % 4 * 16 + b / 16) ::
      b64char (b % 16 * 4 + c / 64) :: b64char (c % 64) :: b64encode rest) =
      some (a :: b :: c :: rest)
    simp only [b64decodeRaw]
    rw [b64val_b64char (a / 4) (by omega),
      b64val_b64char (a % 4 * 16 + b / 16) (by omega),
      b64val_b64char (b % 16 * 4 + c / 64) (by omega),
      b64val_b64char (c % 64) (by omega), ih]
    show some ((a / 4 * 4 + (a % 4 * 16 + b / 16) / 16) ::
      ((a % 4 * 16 + b / 16) % 16 * 16 + (b % 16 * 4 + c / 64) / 4) ::
      ((b % 16 * 4 + c / 64) % 4 * 64 + c % 64) :: rest) = some (a :: b :: c :: rest)
    have e1 : a / 4 * 4 + (a % 4 * 16 + b / 16) / 16 = a := by omega
    have e2 : (a % 4 * 16 + b / 16) % 16 * 16 + (b % 16 * 4 + c / 64) / 4 = b := by omega
    have e3 : (b % 16 * 4 + c / 64) % 4 * 64 + c % 64 = c := by omega
    rw [e1, e2, e3]

/-- The decoder's whitespace filter leaves encoded output unchanged. -/
theorem b64encode_filter (bs : List Nat) (h : ∀ b ∈ bs, b < 256) :
    (b64encode bs).filter (fun c => !(c == '\r' || c == '\n')) = b64encode bs := by
  rw [List.filter_eq_self]
  intro x hx
  obtain ⟨n, hn, rfl⟩ := b64encode_mem bs h x hx
  simpa using (b64char_props n hn).2

/-- C1: the round-trip law fails on the code. `Compress` evaluates
`buf.Bytes()` before the deferred `w.Close()` flushes the compressed body,
so for the payload `"Hello World!"` and the all-zero 32-byte key it returns
only the 6-byte zlib header; `Decompress` of that header parses the header
and dictionary checksum successfully but the flate body is empty, so (for
any flate reader that yields no bytes from an empty stream) the result is
`[]`, not the original payload. -/
theorem c1_roundtrip_fails (inflate : List Nat → List Nat → List Nat)
    (h : inflate zeroKey [] = []) :
    Compress helloWorld zeroKey = [0x78, 0xF9, 0, 32, 0, 1] ∧
    Decompress inflate (Compress helloWorld zeroKey) zeroKey = [] ∧
    Decompress inflate (Compress helloWorld zeroKey) zeroKey ≠ helloWorld := by
  have hc : Compress helloWorld zeroKey = [0x78, 0xF9, 0, 32, 0, 1] := by decide
  refine ⟨hc, ?_, ?_⟩ <;> rw [hc]
  · show Decompress inflate [0x78, 0xF9, 0, 32, 0, 1] zeroKey = []
    simp only [Decompress, be32val]
    norm_num
    have : adler32 zeroKey = 2097153 := by decide
    rw [this]
    simpa using h
  · show Decompress inflate [0x78, 0xF9, 0, 32, 0, 1] zeroKey ≠ helloWorld
    simp only [Decompress, be32val]
    norm_num
    have : adler32 zeroKey = 2097153 := by decide
    rw [this]
    simp only [if_pos rfl]
    rw [h]
    decide

/-- C1 witness: the failure instantiated at a concrete flate reader. -/
theorem c1_roundtrip_fails_witness :
    Decompress (fun _ _ => []) (Compress helloWorld zeroKey) zeroKey = [] ∧
    Decompress (fun _ _ => []) (Compress helloWorld zeroKey) zeroKey ≠ helloWorld :=
  ⟨(c1_roundtrip_fails (fun _ _ => []) rfl).2.1,
   (c1_roundtrip_fails (fun _ _ => []) rfl).2.2⟩

/-- C2 counterexample: a configuration whose `Key` is malformed base64, with
a readable input, a valid variable name and a creatable output path. `Run`
does fail fatally with `"Invalid key"`, but the output artifact file has
already been created (`os.Create` truncates the path) before the key is
decoded, so the configuration error is not detected before every
destructive action, contradicting the claim. -/
theorem c2_key_checked_after_create_counterexample :
    (Run fsOne (fun _ => true) true true cfgBadKey).2 = .fatal "Invalid key" ∧
    "out.dat" ∈ createdPaths (Run fsOne (fun _ => true) true true cfgBadKey).1 := by
  decide

/-- C2 amended: for every configuration whose key is malformed base64 and
which passes the earlier stages (readable input, valid variable name,
creatable output path), `Run` fails fatally with `"Invalid key"`; the
output artifact file has already been created (truncated) at that point,
but no bytes are written to any file and no source file is created. -/
theorem c2_key_fatal_after_output_create (fs : String → Option (List Nat))
    (cc : String → Bool) (tmplOk renderOk : Bool) (cfg : Config)
    (hin : (fs cfg.Input).isSome = true)
    (hvar : IsValidVariableName cfg.Var = true)
    (hout : cc cfg.Output = true)
    (hkey : b64decode cfg.Key = none) :
    (Run fs cc tmplOk renderOk cfg).2 = .fatal "Invalid key" ∧
    createdPaths (Run fs cc tmplOk renderOk cfg).1 = [cfg.Output] ∧
    writesAnything (Run fs cc tmplOk renderOk cfg).1 = false := by
  obtain ⟨data, hdata⟩ := Option.isSome_iff_exists.mp hin
  unfold Run
  rw [hdata, hvar, hout, hkey]
  simp [createdPaths, writesAnything]

/-- C2 witness: the amended statement at a concrete configuration. -/
theorem c2_key_fatal_after_output_create_witness :
    (Run fsOne (fun _ => true) true true cfgBadKey).2 = .fatal "Invalid key" ∧
    createdPaths (Run fsOne (fun _ => true) true true cfgBadKey).1 = [cfgBadKey.Output] ∧
    writesAnything (Run fsOne (fun _ => true) true true cfgBadKey).1 = false :=
  c2_key_fatal_after_output_create fsOne (fun _ => true) true true cfgBadKey
    (by decide) (by decide) rfl (by decide)

/-- C3 counterexample: with an unreadable input path and an invalid variable
name (`"1bad"`), the only step `Run` attempts is the input read and the
fatal message is the read's, so the input file is read before the variable
name is validated — the claimed order Validate → Read Input is wrong. -/
theorem c3_read_before_validate_counterexample :
    IsValidVariableName cfgMissingIn.Var = false ∧
    Run fsNone (fun _ => true) true true cfgMissingIn =
      ([.readInput "missing.bin"], .fatal "Missing input file") := by
  decide

/-- C3 amended: `Run` is strictly linear, but in the order Read Input →
Validate → Create Output → Decode Key → Compress and Write Artifact →
Create Source → Parse Template → Render/Write Source: on a run where every
stage succeeds the trace is exactly this sequence. In particular the input
file is read before the variable name is validated. -/
theorem c3_linear_order (fs : String → Option (List Nat)) (cc : String → Bool)
    (tmplOk renderOk : Bool) (cfg : Config) (data key : List Nat)
    (hin : fs cfg.Input = some data)
    (hvar : IsValidVariableName cfg.Var = true)
    (hout : cc cfg.Output = true)
    (hkey : b64decode cfg.Key = some key)
    (hsrc : cc cfg.Src = true)
    (ht : tmplOk = true) (hr : renderOk = true) :
    Run fs cc tmplOk renderOk cfg =
      ([.readInput cfg.Input, .validateVar cfg.Var, .createFile cfg.Output,
        .decodeKey cfg.Key, .writeFile cfg.Output (Compress data key),
        .createFile cfg.Src, .parseTemplate, .renderSource cfg.Src], .ok) := by
  subst ht hr
  unfold Run
  rw [hin, hvar, hout, hkey, hsrc]
  simp

/-- C3 witness: the amended order at a concrete configuration. -/
theorem c3_linear_order_witness :
    Run fsOne (fun _ => true) true true cfgGood =
      ([.readInput "in.bin", .validateVar "payload", .createFile "out.dat",
        .decodeKey keyA, .writeFile "out.dat" [0x78, 0xF9, 0, 32, 0, 1],
        .createFile "out.go", .parseTemplate, .renderSource "out.go"], .ok) :=
  c3_linear_order fsOne (fun _ => true) true true cfgGood [1, 2, 3] zeroKey
    (by decide) (by decide) rfl (by decide) rfl rfl rfl

/-- C4: `Run` does not treat an empty `Compress` result as a failure
signal. With an existing but empty input file (on which `Compress` returns
`[]`, since the empty `Write` leaves the buffer untouched and the deferred
`Close` flushes only after the return value is captured), `Run` writes the
zero-byte artifact to the output path unconditionally and completes without
any error. -/
theorem c4_zero_byte_artifact_written :
    Compress [] zeroKey = [] ∧
    (Run fsEmpty (fun _ => true) true true cfgGood).2 = .ok ∧
    Event.writeFile "out.dat" [] ∈ (Run fsEmpty (fun _ => true) true true cfgGood).1 := by
  decide

/-- C5: for every configuration whose `Var` field is `"1bad"`, or contains
a `-`, or more generally fails the identifier syntax, `Run` aborts (the
outcome is fatal) and its trace attempts no file creation and no write of
any kind: no output artifact and no generated source file is created. -/
theorem c5_validation_gate (fs : String → Option (List Nat)) (cc : String → Bool)
    (tmplOk renderOk : Bool) (cfg : Config)
    (hvar : cfg.Var = "1bad" ∨ '-' ∈ cfg.Var.data ∨ IsValidVariableName cfg.Var = false) :
    createdPaths (Run fs cc tmplOk renderOk cfg).1 = [] ∧
    writesAnything (Run fs cc tmplOk renderOk cfg).1 = false ∧
    (Run fs cc tmplOk renderOk cfg).2 ≠ .ok := by
  have hv : IsValidVariableName cfg.Var = false := by
    rcases hvar with h | h | h
    · rw [IsValidVariableName, h]; decide
    · exact validIdent_false_of_bad_char cfg.Var.data '-' h (by decide) (by decide)
    · exact h
  unfold Run
  cases hfs : fs cfg.Input with
  | none => simp [createdPaths, writesAnything]
  | some data => rw [hv]; simp [createdPaths, writesAnything]

/-- C5 witness: the gate at a concrete configuration with `Var = "1bad"`. -/
theorem c5_validation_gate_witness :
    createdPaths (Run fsOne (fun _ => true) true true cfgMissingIn).1 = [] ∧
    writesAnything (Run fsOne (fun _ => true) true true cfgMissingIn).1 = false ∧
    (Run fsOne (fun _ => true) true true cfgMissingIn).2 ≠ .ok :=
  c5_validation_gate fsOne (fun _ => true) true true cfgMissingIn (Or.inl rfl)

/-- C10: the empty variable name of the default configuration is rejected
by the identifier check itself: `IsValidVariableName ""` is false, and on
any configuration with an empty `Var` and a readable input, `Run` stops at
the validation step with the identifier check's message, before any file is
created — there is no separate missing-flag check, the flag's required
status is enforced solely by this validation. The `main.go` default
configuration indeed has an empty `Var`. -/
theorem c10_empty_var_rejected (fs : String → Option (List Nat)) (cc : String → Bool)
    (tmplOk renderOk : Bool) (cfg : Config)
    (hvar : cfg.Var = "") (hin : (fs cfg.Input).isSome = true) :
    IsValidVariableName "" = false ∧
    (Run fs cc tmplOk renderOk cfg).1 = [.readInput cfg.Input, .validateVar ""] ∧
    (Run fs cc tmplOk renderOk cfg).2 = .fatal "Invalid variable name" ∧
    createdPaths (Run fs cc tmplOk renderOk cfg).1 = [] ∧
    (∀ f k, (defaultCfg f k).Var = "") := by
  obtain ⟨data, hdata⟩ := Option.isSome_iff_exists.mp hin
  refine ⟨by decide, ?_, ?_, ?_, fun f k => rfl⟩ <;>
    · unfold Run
      rw [hdata, hvar]
      simp [createdPaths, IsValidVariableName, validIdent]

/-- C10 witness: the default configuration, with a file system on which its
input happens to be readable, stops at the identifier validation. -/
theorem c10_empty_var_rejected_witness :
    IsValidVariableName "" = false ∧
    (Run (fun _ => some [1, 2, 3]) (fun _ => true) true true (defaultCfg "F" "k")).2 =
      .fatal "Invalid variable name" ∧
    createdPaths (Run (fun _ => some [1, 2, 3]) (fun _ => true) true true
      (defaultCfg "F" "k")).1 = [] :=
  ⟨(c10_empty_var_rejected (fun _ => some [1, 2, 3]) (fun _ => true) true true
      (defaultCfg "F" "k") rfl rfl).1,
   (c10_empty_var_rejected (fun _ => some [1, 2, 3]) (fun _ => true) true true
      (defaultCfg "F" "k") rfl rfl).2.2.1,
   (c10_empty_var_rejected (fun _ => some [1, 2, 3]) (fun _ => true) true true
      (defaultCfg "F" "k") rfl rfl).2.2.2.1⟩

/-- The zlib header for level 9 with a dictionary: CMF `0x78`, FLG `0xF9`,
then the dictionary checksum. -/
theorem zlibHeader_eq (dict : List Nat) :
    zlibHeader dict = 120 :: 249 :: be32 (adler32 dict) := rfl

/-- A non-empty payload compresses (in the source's buggy sense) to exactly
the zlib header for the key. -/
theorem compress_eq_header (data key : List Nat) (h : data ≠ []) :
    Compress data key = zlibHeader key := by
  unfold Compress zlibWrite
  rw [if_neg h]
  simp

/-- C6: every string returned by `StrGen` has exactly the requested length,
matches `^[a-zA-Z_][a-zA-Z0-9_]*$` (so for the ASCII alphabet in use also
`^[A-Za-z_][A-Za-z0-9_]*$`), and its first character is not a digit. -/
theorem c6_strgen_identifier (g : Nat → Nat) (pos len fuel : Nat) (s : List Char)
    (h : StrGen g pos len fuel = some s) :
    s.length = len ∧ validIdent s = true ∧
    (∀ c, s.head? = some c → c.isDigit = false) := by
  induction fuel generalizing pos with
  | zero => exact absurd h (by simp [StrGen])
  | succ fuel ih =>
    rw [StrGen] at h
    cases hsc : sampleChars g pos len with
    | nil =>
      rw [hsc] at h
      have h0 : (none : Option (List Char)) = some s := h
      exact Option.noConfusion h0
    | cons c tail =>
      rw [hsc] at h
      have h1 : (if c.isDigit = true then StrGen g (pos + len) len fuel
          else some (c :: tail)) = some s := h
      by_cases hd : c.isDigit = true
      · rw [if_pos hd] at h1
        exact ih (pos + len) h1
      · rw [if_neg hd] at h1
        injection h1 with h1
        subst h1
        have hd' : c.isDigit = false := by simpa using hd
        refine ⟨by rw [← hsc]; exact sampleChars_length g pos len, ?_, ?_⟩
        · rw [validIdent, Bool.and_eq_true]
          constructor
          · obtain ⟨i, hi, rfl⟩ := sampleChars_mem g pos len c
              (by rw [hsc]; exact List.mem_cons_self c tail)
            exact charset_start i hi hd'
          · rw [List.all_eq_true]
            intro x hx
            obtain ⟨i, hi, rfl⟩ := sampleChars_mem g pos len x
              (by rw [hsc]; exact List.mem_cons_of_mem c hx)
            exact charset_cont i hi
        · intro c' hc'
          simp only [List.head?_cons, Option.some.injEq] at hc'
          subst hc'
          exact hd'

/-- C6 witness: a concrete run of the generator. -/
theorem c6_strgen_identifier_witness :
    (['a', 'a', 'a'] : List Char).length = 3 ∧ validIdent ['a', 'a', 'a'] = true :=
  ⟨(c6_strgen_identifier (fun _ => 0) 0 3 1 ['a', 'a', 'a'] (by decide)).1,
   (c6_strgen_identifier (fun _ => 0) 0 3 1 ['a', 'a', 'a'] (by decide)).2.1⟩

/-- C7: decompressing with a different key does not recover the payload and
does not crash. On this code the property holds degenerately: because
`Compress` returns only the zlib header (the deferred `Close` flushes after
the return value is captured), `Decompress` yields `[]` whatever the second
key — either the dictionary checksums differ and `NewReaderDict` fails, or
they coincide and the empty flate body yields no bytes — and `[]` is not
the non-empty payload. The flate reader is any function yielding no bytes
from an empty stream. -/
theorem c7_key_sensitivity (inflate : List Nat → List Nat → List Nat)
    (P K1 K2 : List Nat) (hP : P ≠ []) (hlen : P.length < 32768) (hkeys : K1 ≠ K2)
    (hinf : ∀ d, inflate d [] = []) :
    Decompress inflate (Compress P K1) K2 = [] ∧
    Decompress inflate (Compress P K1) K2 ≠ P := by
  have hc : Compress P K1 = 120 :: 249 :: be32 (adler32 K1) := by
    rw [compress_eq_header P K1 hP, zlibHeader_eq]
  have hres : Decompress inflate (Compress P K1) K2 = [] := by
    rw [hc]
    simp only [Decompress, be32]
    norm_num
    intro _
    exact hinf K2
  exact ⟨hres, by rw [hres]; intro hco; exact hP hco.symm⟩

/-- C7 witness: concrete distinct 32-byte keys and a one-byte payload. -/
theorem c7_key_sensitivity_witness :
    Decompress (fun _ _ => []) (Compress [1] zeroKey) oneKey = [] ∧
    Decompress (fun _ _ => []) (Compress [1] zeroKey) oneKey ≠ [1] :=
  c7_key_sensitivity (fun _ _ => []) [1] zeroKey oneKey (by decide) (by decide)
    (by decide) (fun _ => rfl)

/-- C8: the rejection-sampling structure of `StrGen` and its probabilistic
termination. First conjunct: whenever the first sampled character of an
attempt is a digit, the entire string is resampled from the following
stream positions with one unit of fuel spent. Second conjunct: some fuel
suffices (the recursion terminates with a returned string) exactly when
some attempt's first sampled character is a non-digit — so termination is
only probabilistic, and on an adversarial stream whose every attempt starts
with a digit the recursion never returns. -/
theorem c8_strgen_rejection (g : Nat → Nat) (len : Nat) (hlen : 1 ≤ len) :
    (∀ pos fuel, (charset.getD (g pos % 63) 'a').isDigit = true →
      StrGen g pos len (fuel + 1) = StrGen g (pos + len) len fuel) ∧
    ((∃ fuel s, StrGen g 0 len fuel = some s) ↔
      ∃ k, (charset.getD (g (k * len) % 63) 'a').isDigit = false) := by
  constructor
  · intro pos fuel hdig
    rw [strGen_succ g pos len fuel hlen, if_pos hdig]
  · constructor
    · intro ⟨fuel, s, hs⟩
      by_contra hno
      push_neg at hno
      have hbad : ∀ k, (charset.getD (g (k * len) % 63) 'a').isDigit = true := by
        intro k
        have := hno k
        revert this
        cases (charset.getD (g (k * len) % 63) 'a').isDigit <;> simp
      have all_none : ∀ fl j, StrGen g (j * len) len fl = none := by
        intro fl
        induction fl with
        | zero => intro j; rfl
        | succ fl ihf =>
          intro j
          rw [strGen_succ g (j * len) len fl hlen, if_pos (hbad j),
            show j * len + len = (j + 1) * len by ring]
          exact ihf (j + 1)
      have := all_none fuel 0
      rw [Nat.zero_mul] at this
      rw [this] at hs
      exact Option.noConfusion hs
    · intro ⟨k, hk⟩
      have aux : ∀ k pos, (charset.getD (g (pos + k * len) % 63) 'a').isDigit = false →
          ∃ s, StrGen g pos len (k + 1) = some s := by
        intro k
        induction k with
        | zero =>
          intro pos h0
          rw [strGen_succ g pos len 0 hlen]
          rw [Nat.zero_mul, Nat.add_zero] at h0
          rw [if_neg (fun hcon => by rw [h0] at hcon; exact Bool.false_ne_true hcon)]
          exact ⟨_, rfl⟩
        | succ k ihk =>
          intro pos hk1
          rw [strGen_succ g pos len (k + 1) hlen]
          by_cases hd : (charset.getD (g pos % 63) 'a').isDigit = true
          · rw [if_pos hd]
            apply ihk (pos + len)
            rw [show pos + len + k * len = pos + (k + 1) * len by ring]
            exact hk1
          · rw [if_neg hd]
            exact ⟨_, rfl⟩
      obtain ⟨s, hs⟩ := aux k 0 (by rw [Nat.zero_add]; exact hk)
      exact ⟨k + 1, s, hs⟩

/-- C8 witness: on a stream whose first sample is a letter, some fuel
returns a string. -/
theorem c8_strgen_rejection_witness :
    ∃ fuel s, StrGen (fun _ => 0) 0 1 fuel = some s :=
  (c8_strgen_rejection (fun _ => 0) 1 (by decide)).2.mpr ⟨0, by decide⟩

/-- C9: every key produced by `KeyGen` decodes, under unpadded standard
base64, to exactly the 32 random bytes it was built from, and the encoded
key contains no padding character. -/
theorem c9_keygen_key (g : Nat → Nat) :
    b64decode (KeyGen g) = some ((List.range 32).map fun i => g i % 256) ∧
    ((List.range 32).map fun i => g i % 256).length = 32 ∧
    ∀ c ∈ (KeyGen g).data, c ≠ '=' := by
  have hb : ∀ b ∈ (List.range 32).map (fun i => g i % 256), b < 256 := by
    intro b hbm
    simp only [List.mem_map, List.mem_range] at hbm
    obtain ⟨i, _, rfl⟩ := hbm
    exact Nat.mod_lt _ (by norm_num)
  refine ⟨?_, by simp, ?_⟩
  · rw [KeyGen, b64decode]
    rw [show (String.mk (b64encode ((List.range 32).map fun i => g i % 256))).data =
      b64encode ((List.range 32).map fun i => g i % 256) from rfl]
    rw [b64encode_filter _ hb]
    exact b64decodeRaw_b64encode _ hb
  · intro c hc
    obtain ⟨n, hn, rfl⟩ := b64encode_mem _ hb c (by simpa [KeyGen] using hc)
    exact (b64char_props n hn).1

/-- C9 witness: the all-zero random stream yields a key decoding to 32
bytes. -/
theorem c9_keygen_key_witness :
    b64decode (KeyGen fun _ => 0) = some ((List.range 32).map fun i => 0 % 256) :=
  (c9_keygen_key fun _ => 0).1

end CompressEmbed
